import Mathlib

/-!
Verification of the TalkieWalkie "scan-to-talk" client.

This file gives a shallow embedding of the core of the repository:

* `src/agentMap.ts` — the payload resolver (`resolveAgentKey`,
  `getAgentByKey`, `createLookup` and the static agent tables);
* the push-to-talk `CallScreen` component (Vapi variant) and the
  `ElevenLabsCallScreen` component — each modelled as a state machine
  over the component's local state, with backend calls (`vapi.start`,
  `vapi.stop`, `vapi.setMuted`, `conversation.startSession`,
  `conversation.endSession`, microphone permission probes) modelled by
  explicit success/failure outcomes attached to each event;
* the multi-provider `App` flow orchestrator (`handleDetection`,
  `restartScanner`);
* the permission probe `queryPermission`.

JavaScript strings are modelled as `List Char` (`JStr`).  JavaScript's
`String.prototype.trim`, `toLowerCase`, `split` and `startsWith` are
modelled by executable list functions.  `JSON.parse` is modelled by an
executable recursive-descent parser over the JSON grammar returning
`Option JsVal`; a parse failure models the thrown `SyntaxError`.
-/

/-! ## JavaScript string primitives -/

/-- JavaScript strings, modelled as lists of characters. -/
abbrev JStr := List Char

/-- Model of a whitespace character for `String.prototype.trim`. -/
def jsSpace (c : Char) : Bool := c.isWhitespace

/-- Model of `String.prototype.toLowerCase` on a single character
(ASCII range, which is all the repository's keys use). -/
def lowerChar (c : Char) : Char :=
  if 'A' ≤ c ∧ c ≤ 'Z' then Char.ofNat (c.toNat + 32) else c

/-- Model of `String.prototype.toLowerCase`. -/
def jsLower (s : JStr) : JStr := s.map lowerChar

/-- Drop whitespace from the front of a character list. -/
def dropLeadingWs (s : JStr) : JStr := s.dropWhile jsSpace

/-- Model of `String.prototype.trim`: drop whitespace at both ends. -/
def jsTrim (s : JStr) : JStr :=
  ((s.dropWhile jsSpace).reverse.dropWhile jsSpace).reverse

/-- Model of `String.prototype.split(sep)` for a one-character
separator: always returns a non-empty list of (possibly empty)
segments. -/
def jsSplit (sep : Char) : JStr → List JStr
  | [] => [[]]
  | c :: rest =>
    match jsSplit sep rest with
    | [] => [[c]]
    | h :: t => if c = sep then [] :: h :: t else (c :: h) :: t

/-- Model of `Array.prototype.pop()` on the result of a split: the last
segment (`jsSplit` never returns `[]`, so the default is never used). -/
def lastSegment (segs : List JStr) : JStr := segs.getLastD []

/-! ## JSON values and a model of `JSON.parse`

`JSON.parse` is a host capability, not repository code; it is modelled
here by an executable parser of the JSON grammar.  Numbers keep their
source lexeme (only their stringification is ever observed, and no
claim exercises numeric payload fields). -/

/-- The values `JSON.parse` can produce. -/
inductive JsVal where
  | vnull : JsVal
  | vbool : Bool → JsVal
  | vnum : JStr → JsVal
  | vstr : JStr → JsVal
  | varr : List JsVal → JsVal
  | vobj : List (JStr × JsVal) → JsVal

/-- Skip JSON whitespace. -/
def skipWs (s : JStr) : JStr :=
  s.dropWhile (fun c => c = ' ' ∨ c = '\t' ∨ c = '\n' ∨ c = '\r')

/-- Hexadecimal digit test for `\uXXXX` escapes. -/
def isHexDigit (c : Char) : Bool :=
  c.isDigit ∨ ('a' ≤ c ∧ c ≤ 'f') ∨ ('A' ≤ c ∧ c ≤ 'F')

/-- Value of a hexadecimal digit. -/
def hexVal (c : Char) : Nat :=
  if c.isDigit then c.toNat - '0'.toNat
  else if 'a' ≤ c then c.toNat - 'a'.toNat + 10
  else c.toNat - 'A'.toNat + 10

/-- Decode a one-character JSON string escape. -/
def simpleEscape (c : Char) : Option Char :=
  match c with
  | '"' => some '"'
  | '\\' => some '\\'
  | '/' => some '/'
  | 'b' => some '\x08'
  | 'f' => some '\x0c'
  | 'n' => some '\n'
  | 'r' => some '\r'
  | 't' => some '\t'
  | _ => none

/-- Parse the body of a JSON string (after the opening quote). -/
def parseStringBody : JStr → Option (JStr × JStr)
  | [] => none
  | '"' :: rest => some ([], rest)
  | '\\' :: 'u' :: a :: b :: c :: d :: rest =>
    if isHexDigit a ∧ isHexDigit b ∧ isHexDigit c ∧ isHexDigit d then
      match parseStringBody rest with
      | none => none
      | some (tail, rest') =>
        some (Char.ofNat (((hexVal a * 16 + hexVal b) * 16 + hexVal c) * 16 + hexVal d) :: tail, rest')
    else none
  | '\\' :: e :: rest =>
    match simpleEscape e with
    | none => none
    | some c =>
      match parseStringBody rest with
      | none => none
      | some (tail, rest') => some (c :: tail, rest')
  | c :: rest =>
    if c.toNat < 32 then none
    else
      match parseStringBody rest with
      | none => none
      | some (tail, rest') => some (c :: tail, rest')

/-- Lex a JSON number at the head of the input; returns its lexeme. -/
def parseNumber (s : JStr) : Option (JStr × JStr) :=
  let (sign, s1) := match s with
    | '-' :: rest => (['-'], rest)
    | _ => (([] : JStr), s)
  let intPart := s1.takeWhile Char.isDigit
  let s2 := s1.drop intPart.length
  if intPart = [] then none
  else if intPart.length > 1 ∧ intPart.headD '0' = '0' then none
  else
    let (frac, s3) :=
      match s2 with
      | '.' :: rest =>
        let ds := rest.takeWhile Char.isDigit
        if ds = [] then (none, s2) else (some ('.' :: ds), rest.drop ds.length)
      | _ => (none, s2)
    match frac, s2 with
    | none, '.' :: _ => none
    | _, _ =>
      let fracL := frac.getD []
      let (expPart, s4) :=
        match s3 with
        | e :: rest =>
          if e = 'e' ∨ e = 'E' then
            let (esign, r1) := match rest with
              | '+' :: r => (['+'], r)
              | '-' :: r => (['-'], r)
              | _ => (([] : JStr), rest)
            let ds := r1.takeWhile Char.isDigit
            if ds = [] then (none, s3)
            else (some (e :: (esign ++ ds)), r1.drop ds.length)
          else (none, s3)
        | [] => (none, s3)
      match expPart, s3 with
      | none, e :: _ =>
        if e = 'e' ∨ e = 'E' then none
        else some (sign ++ intPart ++ fracL, s3)
      | none, [] => some (sign ++ intPart ++ fracL, s3)
      | some ex, _ => some (sign ++ intPart ++ fracL ++ ex, s4)

mutual

/-- Parse one JSON value (fuel-indexed to bound recursion depth; the
top-level entry point supplies enough fuel for any input). -/
def parseVal : Nat → JStr → Option (JsVal × JStr)
  | 0, _ => none
  | fuel + 1, s =>
    match skipWs s with
    | 'n' :: 'u' :: 'l' :: 'l' :: rest => some (.vnull, rest)
    | 't' :: 'r' :: 'u' :: 'e' :: rest => some (.vbool true, rest)
    | 'f' :: 'a' :: 'l' :: 's' :: 'e' :: rest => some (.vbool false, rest)
    | '"' :: rest =>
      match parseStringBody rest with
      | none => none
      | some (str, rest') => some (.vstr str, rest')
    | '{' :: rest =>
      (match skipWs rest with
       | '}' :: rest' => some (.vobj [], rest')
       | _ =>
         match parseMembers fuel rest with
         | none => none
         | some (fields, rest') => some (.vobj fields, rest'))
    | '[' :: rest =>
      (match skipWs rest with
       | ']' :: rest' => some (.varr [], rest')
       | _ =>
         match parseElements fuel rest with
         | none => none
         | some (xs, rest') => some (.varr xs, rest'))
    | other =>
      match parseNumber other with
      | some (lex, rest) => some (.vnum lex, rest)
      | none => none

/-- Parse the members of a JSON object (after the opening brace),
consuming the closing brace. -/
def parseMembers : Nat → JStr → Option (List (JStr × JsVal) × JStr)
  | 0, _ => none
  | fuel + 1, s =>
    match skipWs s with
    | '"' :: rest =>
      (match parseStringBody rest with
       | none => none
       | some (key, rest1) =>
         match skipWs rest1 with
         | ':' :: rest2 =>
           (match parseVal fuel rest2 with
            | none => none
            | some (v, rest3) =>
              match skipWs rest3 with
              | ',' :: rest4 =>
                (match parseMembers fuel rest4 with
                 | none => none
                 | some (fields, rest5) => some ((key, v) :: fields, rest5))
              | '}' :: rest4 => some ([(key, v)], rest4)
              | _ => none)
         | _ => none)
    | _ => none

/-- Parse the elements of a JSON array (after the opening bracket),
consuming the closing bracket. -/
def parseElements : Nat → JStr → Option (List JsVal × JStr)
  | 0, _ => none
  | fuel + 1, s =>
    match parseVal fuel s with
    | none => none
    | some (v, rest) =>
      match skipWs rest with
      | ',' :: rest1 =>
        (match parseElements fuel rest1 with
         | none => none
         | some (xs, rest2) => some (v :: xs, rest2))
      | ']' :: rest1 => some ([v], rest1)
      | _ => none

end

/-- Model of `JSON.parse`: `none` models a thrown `SyntaxError`. -/
def jsonParse (s : JStr) : Option JsVal :=
  match parseVal (s.length + 1) s with
  | none => none
  | some (v, rest) => if skipWs rest = [] then some v else none

/-! ## JavaScript `String()` conversion for parsed JSON values -/

mutual

/-- Model of JavaScript `String(v)` applied to a `JSON.parse` result. -/
def jsToString : JsVal → JStr
  | .vnull => ['n', 'u', 'l', 'l']
  | .vbool true => ['t', 'r', 'u', 'e']
  | .vbool false => ['f', 'a', 'l', 's', 'e']
  | .vnum lexeme => lexeme
  | .vstr s => s
  | .varr xs => jsArrJoin xs
  | .vobj _ =>
    ['[', 'o', 'b', 'j', 'e', 'c', 't', ' ', 'O', 'b', 'j', 'e', 'c', 't', ']']

/-- Model of `Array.prototype.toString` (comma join; `null` elements
become the empty string). -/
def jsArrJoin : List JsVal → JStr
  | [] => []
  | [x] => match x with
    | .vnull => []
    | v => jsToString v
  | x :: y :: rest =>
    (match x with
     | .vnull => []
     | v => jsToString v) ++ ',' :: jsArrJoin (y :: rest)

end

/-- Model of `String(v ?? '')` as used on the parsed `agent` field:
nullish values coalesce to the empty string before stringification. -/
def jsStringOrEmpty : JsVal → JStr
  | .vnull => []
  | v => jsToString v

/-- Model of the `'agent' in parsed` / `parsed.agent` pair: JavaScript
property lookup on an object built by `JSON.parse`, where a duplicated
key keeps its last occurrence. -/
def jsGetField (fields : List (JStr × JsVal)) (key : JStr) : Option JsVal :=
  (fields.reverse.find? (fun e => e.1 = key)).map (·.2)

/-! ## `src/agentMap.ts` -/

/-- Embedding of the `AgentInfo` record type of `agentMap.ts`. -/
structure AgentInfo where
  id : String
  label : String
deriving DecidableEq

/-- The static `AGENTS` table of `agentMap.ts` (Vapi assistants). -/
def AGENTS : List (JStr × AgentInfo) :=
  [("rio".toList, ⟨"1e171fee-c39d-4848-a6fd-2e658a442ff0", "RIO"⟩)]

/-- The static `ELEVENLABS_AGENTS` table of `agentMap.ts`. -/
def ELEVENLABS_AGENTS : List (JStr × AgentInfo) :=
  [("rio".toList, ⟨"agent_1101k5skt77qetsstmz8x7j9t5pv", "RIO (ElevenLabs)"⟩)]

/-- Embedding of `createLookup`: lower-cases every key of the map. -/
def createLookup (m : List (JStr × AgentInfo)) : List (JStr × AgentInfo) :=
  m.map (fun e => (jsLower e.1, e.2))

/-- Property read `lookup[normalized]` on a record built from entries
(last binding for a key wins, as with `Object.fromEntries`). -/
def jsRecordGet (l : List (JStr × AgentInfo)) (key : JStr) : Option AgentInfo :=
  (l.reverse.find? (fun e => e.1 = key)).map (·.2)

/-- `VAPI_LOOKUP` of `agentMap.ts`. -/
def VAPI_LOOKUP : List (JStr × AgentInfo) := createLookup AGENTS

/-- `ELEVENLABS_LOOKUP` of `agentMap.ts`. -/
def ELEVENLABS_LOOKUP : List (JStr × AgentInfo) := createLookup ELEVENLABS_AGENTS

/-- The URI scheme recognised by `resolveAgentKey` (the characters of
`talkiewalkie://`). -/
def uriScheme : JStr :=
  ['t', 'a', 'l', 'k', 'i', 'e', 'w', 'a', 'l', 'k', 'i', 'e', ':', '/', '/']

/-- The `'agent'` field name. -/
def agentFieldName : JStr := ['a', 'g', 'e', 'n', 't']

/-- Embedding of the structured-payload branch of `resolveAgentKey`
(the body after a successful `JSON.parse`): require the `agent` field,
stringify with nullish-coalescing, trim, and map empty to `null`. -/
def agentFieldValue (v : JsVal) : Option JStr :=
  match v with
  | .vobj fields =>
    match jsGetField fields agentFieldName with
    | none => none
    | some a =>
      let value := jsTrim (jsStringOrEmpty a)
      if value = [] then none else some value
  | _ => none

/-- Embedding of `resolveAgentKey` from `src/agentMap.ts`.  `none`
models `null`.  The `try`/`catch` around the two structured branches
absorbs the only throw site (`JSON.parse`, modelled by
`jsonParse … = none`) into `none`. -/
def resolveAgentKey (payload : JStr) : Option JStr :=
  if payload = [] then none
  else
    let trimmed := jsTrim payload
    if uriScheme.isPrefixOf trimmed then
      let segment := jsTrim (lastSegment (jsSplit '/' trimmed))
      if segment = [] then none else some segment
    else if ['{'].isPrefixOf trimmed then
      match jsonParse trimmed with
      | none => none
      | some v => agentFieldValue v
    else some trimmed

/-- Exception-explicit embedding of `resolveAgentKey`: the body of the
`try` block is run in `Except` (with `JSON.parse` throwing), and the
`catch` clause maps any thrown error to `null`.  `Option` in the inner
result distinguishes "the try block returned" from "fell through to
`return trimmed`". -/
def resolveAgentKeyE (payload : JStr) : Except String (Option JStr) :=
  if payload = [] then .ok none
  else
    let trimmed := jsTrim payload
    let tryBlock : Except String (Option (Option JStr)) :=
      if uriScheme.isPrefixOf trimmed then
        let segment := jsTrim (lastSegment (jsSplit '/' trimmed))
        .ok (some (if segment = [] then none else some segment))
      else if ['{'].isPrefixOf trimmed then
        match jsonParse trimmed with
        | none => .error "SyntaxError"
        | some v => .ok (some (agentFieldValue v))
      else .ok none
    match tryBlock with
    | .error _ => .ok none
    | .ok (some r) => .ok r
    | .ok none => .ok (some trimmed)

/-- Embedding of `getAgentByKey`: `!key` is JavaScript falsiness, so
both `null` and the empty string are rejected. -/
def getAgentByKey (lookup : List (JStr × AgentInfo)) (key : Option JStr) :
    Option AgentInfo :=
  match key with
  | none => none
  | some k =>
    if k = [] then none
    else
      let normalized := jsLower (jsTrim k)
      if normalized = [] then none else jsRecordGet lookup normalized


/-! ## The push-to-talk `CallScreen` (Vapi variant)

`src/components/CallScreen.tsx` (hold-to-talk variant).  The component
state is `status`, `error`, `isHolding`, `isMuted`; `statusRef` mirrors
`status` via the `[status]` effect, so in the settled states between
event-handler runs the two agree and the model reads `status` where the
source reads `statusRef.current`.  Backend operations are modelled by
explicit outcome flags carried on each event:

* `muteThrows`: `vapi.setMuted` throws inside `applyMuteState` (its
  `catch` logs and leaves the local `isMuted` unchanged);
* `stopThrows`: `vapi.stop()` throws synchronously;
* `micOk` / `startOk`: microphone permission probe / `vapi.start`.
-/

/-- The `CallStatus` union type of both call screens. -/
inductive CallStatus where
  | idle | connecting | live | ended | error
deriving DecidableEq

/-- Local state of the push-to-talk `CallScreen`. -/
structure VState where
  status : CallStatus
  error : Option String
  isHolding : Bool
  isMuted : Bool
deriving DecidableEq

/-- Initial `useState` values of `CallScreen`. -/
def vapiInit : VState :=
  { status := .idle, error := none, isHolding := false, isMuted := true }

/-- Embedding of `applyMuteState`: `vapi.setMuted(mute)` then
`setIsMuted(mute)`, inside a `try` whose `catch` only logs — so when
the backend call throws, the local flag is left unchanged. -/
def applyMuteState (mute muteThrows : Bool) (s : VState) : VState :=
  if muteThrows then s else { s with isMuted := mute }

/-- Embedding of `startCall`.  Returns the new state and whether the
backend start (`vapi.start`) was invoked.  `failMsg` is the message of
the error thrown on the failing path (`err.message` or the fallback). -/
def startCall (micOk startOk : Bool) (failMsg : String) (muteThrows : Bool)
    (s : VState) : VState × Bool :=
  if s.status = .connecting ∨ s.status = .live then (s, false)
  else
    let s1 := { s with error := none, status := .connecting }
    if micOk = false then
      (applyMuteState true muteThrows { s1 with status := .error, error := some failMsg }, false)
    else if startOk = false then
      (applyMuteState true muteThrows { s1 with status := .error, error := some failMsg }, true)
    else (applyMuteState true muteThrows s1, true)

/-- Embedding of `endCall`: `try { vapi.stop() } finally { applyMuteState(true);
setIsHolding(false); setStatus('ended') }`.  There is no `catch`, so a
synchronously-throwing `vapi.stop()` re-propagates to the caller after
the `finally` block has run; the returned `Bool` is that propagated
exception. -/
def endCall (stopThrows muteThrows : Bool) (s : VState) : VState × Bool :=
  ({ applyMuteState true muteThrows s with isHolding := false, status := .ended },
   stopThrows)

/-- The fixed message of the `call-start-failed` handler. -/
def callStartFailedMsg : String := "Unable to connect to the assistant. Please try again."

/-- The fixed message of the generic `error` handler. -/
def callErrorMsg : String := "A call error occurred. Please try again."

/-- Embedding of the `call-start` listener. -/
def onCallStart (muteThrows : Bool) (s : VState) : VState :=
  applyMuteState true muteThrows { s with status := .live, isHolding := false }

/-- Embedding of the `call-end` listener. -/
def onCallEnd (muteThrows : Bool) (s : VState) : VState :=
  applyMuteState true muteThrows { s with status := .ended, isHolding := false }

/-- Embedding of the `call-start-failed` listener. -/
def onCallStartFailed (muteThrows : Bool) (s : VState) : VState :=
  { applyMuteState true muteThrows { s with status := .error, isHolding := false }
      with error := some callStartFailedMsg }

/-- Embedding of the generic `error` listener. -/
def onError (muteThrows : Bool) (s : VState) : VState :=
  { applyMuteState true muteThrows { s with status := .error, isHolding := false }
      with error := some callErrorMsg }

/-- Embedding of `handleHoldStart`: refused unless status is exactly
`live` and not already holding. -/
def handleHoldStart (muteThrows : Bool) (s : VState) : VState :=
  if s.status ≠ .live ∨ s.isHolding = true then s
  else applyMuteState false muteThrows { s with isHolding := true }

/-- Embedding of `handleHoldEnd`: a no-op unless holding. -/
def handleHoldEnd (muteThrows : Bool) (s : VState) : VState :=
  if s.isHolding = false then s
  else applyMuteState true muteThrows { s with isHolding := false }

/-- The events the push-to-talk `CallScreen` can process, each carrying
the outcomes of the backend calls it performs. -/
inductive VEvent where
  | evStartCall (micOk startOk : Bool) (failMsg : String) (muteThrows : Bool)
  | evEndCall (stopThrows muteThrows : Bool)
  | evCallStart (muteThrows : Bool)
  | evCallEnd (muteThrows : Bool)
  | evCallStartFailed (muteThrows : Bool)
  | evError (muteThrows : Bool)
  | evHoldStart (muteThrows : Bool)
  | evHoldEnd (muteThrows : Bool)
deriving DecidableEq

/-- The handler body run for each event (before React re-renders). -/
def vapiHandle (s : VState) : VEvent → VState
  | .evStartCall micOk startOk failMsg muteThrows =>
    (startCall micOk startOk failMsg muteThrows s).1
  | .evEndCall stopThrows muteThrows => (endCall stopThrows muteThrows s).1
  | .evCallStart muteThrows => onCallStart muteThrows s
  | .evCallEnd muteThrows => onCallEnd muteThrows s
  | .evCallStartFailed muteThrows => onCallStartFailed muteThrows s
  | .evError muteThrows => onError muteThrows s
  | .evHoldStart muteThrows => handleHoldStart muteThrows s
  | .evHoldEnd muteThrows => handleHoldEnd muteThrows s

/-- The `[status]` effect body: sync `statusRef` and clear the hold
flag whenever the status is not `live`. -/
def statusEffect (s : VState) : VState :=
  if s.status ≠ .live then { s with isHolding := false } else s

/-- One settled step of the push-to-talk `CallScreen`: run the handler,
then (when the status changed, so the `[status]` effect re-runs) the
effect body. -/
def vapiStep (s : VState) (e : VEvent) : VState :=
  let s' := vapiHandle s e
  if s'.status = s.status then s' else statusEffect s'

/-- States of the `CallScreen` reachable from mount. -/
inductive VReachable : VState → Prop where
  | init : VReachable vapiInit
  | step {s : VState} (e : VEvent) : VReachable s → VReachable (vapiStep s e)

/-! ## The `ElevenLabsCallScreen`

`src/components/ElevenLabsCallScreen.tsx`.  Mute state here is plain
React state (`isMicMuted` feeds the SDK's `micMuted` option), so no
mute transition can fail.  `conversation.endSession()` returns a
promise whose rejection is always consumed by an attached `.catch`. -/

/-- Local state of `ElevenLabsCallScreen`. -/
structure EState where
  status : CallStatus
  error : Option String
  isHolding : Bool
  isMicMuted : Bool
deriving DecidableEq

/-- Initial `useState` values of `ElevenLabsCallScreen`. -/
def elInit : EState :=
  { status := .idle, error := none, isHolding := false, isMicMuted := true }

/-- The missing-key message of `startSession`. -/
def missingKeyMsg : String :=
  "Missing ElevenLabs API key. Set VITE_ELEVENLABS_API_KEY and reload."

/-- Embedding of `startSession`.  Returns the new state and whether the
backend start (`conversation.startSession`) was invoked.  `apiKeyOk`
models the module-level `ELEVENLABS_API_KEY` being set. -/
def startSession (apiKeyOk micOk startOk : Bool) (failMsg : String)
    (s : EState) : EState × Bool :=
  if s.status = .connecting ∨ s.status = .live then (s, false)
  else if apiKeyOk = false then
    ({ s with error := some missingKeyMsg, status := .error }, false)
  else
    let s1 := { s with error := none, status := .connecting }
    if micOk = false then
      ({ s1 with error := some failMsg, status := .error, isMicMuted := true }, false)
    else if startOk = false then
      ({ s1 with error := some failMsg, status := .error, isMicMuted := true }, true)
    else ({ s1 with isMicMuted := true, status := .live }, true)

/-- Embedding of `endSession`: the backend teardown promise gets a
`.catch` that merely logs, so its failure (`teardownFails`) never
reaches the caller — the returned `Bool` (exception propagated) is
always `false` — and the local transition happens regardless. -/
def endSession (teardownFails : Bool) (s : EState) : EState × Bool :=
  ((fun _ => { s with status := .ended, isHolding := false, isMicMuted := true })
     teardownFails,
   false)

/-- Backend statuses delivered to the `onStatusChange` callback. -/
inductive EBStatus where
  | connected | disconnecting | disconnected | other
deriving DecidableEq

/-- Embedding of the `onStatusChange` callback. -/
def onStatusChange (b : EBStatus) (s : EState) : EState :=
  match b with
  | .connected => { s with status := .live }
  | .disconnecting => { s with status := .ended, isHolding := false, isMicMuted := true }
  | .disconnected => { s with status := .ended, isHolding := false, isMicMuted := true }
  | .other => s

/-- Embedding of the `onDisconnect` callback. -/
def onDisconnect (s : EState) : EState :=
  { s with status := .ended, isHolding := false, isMicMuted := true }

/-- Embedding of the `onError` callback. -/
def onConvError (msg : String) (s : EState) : EState :=
  { s with status := .error, error := some msg, isHolding := false, isMicMuted := true }

/-- Embedding of `handleHoldStart` (ElevenLabs variant). -/
def elHoldStart (s : EState) : EState :=
  if s.status ≠ .live ∨ s.isHolding = true then s
  else { s with isHolding := true, isMicMuted := false }

/-- Embedding of `handleHoldEnd` (ElevenLabs variant). -/
def elHoldEnd (s : EState) : EState :=
  if s.isHolding = false then s
  else { s with isHolding := false, isMicMuted := true }

/-- The events the `ElevenLabsCallScreen` can process. -/
inductive EEvent where
  | evStartSession (apiKeyOk micOk startOk : Bool) (failMsg : String)
  | evEndSession (teardownFails : Bool)
  | evStatusChange (b : EBStatus)
  | evDisconnect
  | evConvError (msg : String)
  | evHoldStart
  | evHoldEnd
deriving DecidableEq

/-- One step of the `ElevenLabsCallScreen`.  Its `[status]` effect only
syncs `statusRef`, so no extra settling is performed. -/
def elStep (s : EState) : EEvent → EState
  | .evStartSession apiKeyOk micOk startOk failMsg =>
    (startSession apiKeyOk micOk startOk failMsg s).1
  | .evEndSession teardownFails => (endSession teardownFails s).1
  | .evStatusChange b => onStatusChange b s
  | .evDisconnect => onDisconnect s
  | .evConvError msg => onConvError msg s
  | .evHoldStart => elHoldStart s
  | .evHoldEnd => elHoldEnd s

/-- States of the `ElevenLabsCallScreen` reachable from mount. -/
inductive EReachable : EState → Prop where
  | init : EReachable elInit
  | step {s : EState} (e : EEvent) : EReachable s → EReachable (elStep s e)

/-! ## The Flow Orchestrator (`App`, multi-provider variant)

The `handleDetection` / `restartScanner` callbacks of the unnamed
multi-provider `App` component, which thread the scanned payload
through the resolver and either re-enter `scanning` (with a fresh
scanner reset token) or enter `call`. -/

/-- The selected voice-stack provider. -/
inductive Provider where
  | vapi | elevenlabs
deriving DecidableEq

/-- The `FlowStage` union of the multi-provider `App`. -/
inductive Stage where
  | home | scanning | resolving | call
deriving DecidableEq

/-- The `App` component's local state. -/
structure AppState where
  provider : Option Provider
  stage : Stage
  agent : Option AgentInfo
  message : Option String
  scannerError : Option String
  scannerResetToken : Nat
deriving DecidableEq

/-- Initial `useState` values of `App`. -/
def appInit : AppState :=
  { provider := none, stage := .home, agent := none, message := none,
    scannerError := none, scannerResetToken := 0 }

/-- The display message for an unreadable payload. -/
def couldNotReadMsg : String := "Could not read this QR code. Please try again."

/-- The display message for an unknown agent. -/
def unknownAgentMsg : String := "Unknown agent. Please scan a TalkieWalkie QR."

/-- Embedding of `restartScanner`: a no-op without a provider,
otherwise re-enter `scanning`, drop the agent and scanner error, clear
the message only when asked to, and bump the reset token. -/
def restartScanner (clearMessage : Bool) (s : AppState) : AppState :=
  if s.provider = none then s
  else
    { s with stage := .scanning, agent := none, scannerError := none,
             message := if clearMessage then none else s.message,
             scannerResetToken := s.scannerResetToken + 1 }

/-- The lookup table used by `handleDetection` for a provider. -/
def lookupFor (p : Provider) : List (JStr × AgentInfo) :=
  match p with
  | .elevenlabs => ELEVENLABS_LOOKUP
  | .vapi => VAPI_LOOKUP

/-- JavaScript falsiness of the resolved key (`!key` is true for both
`null` and the empty string). -/
def keyFalsy (key : Option JStr) : Bool :=
  key = none ∨ key = some []

/-- Embedding of `handleDetection` from the multi-provider `App`. -/
def handleDetection (payload : JStr) (s : AppState) : AppState :=
  if s.provider = none then s
  else
    let s1 := { s with stage := .resolving, message := none }
    let key := resolveAgentKey payload
    if keyFalsy key then
      restartScanner false { s1 with message := some couldNotReadMsg }
    else
      let lookup := if s.provider = some .elevenlabs then ELEVENLABS_LOOKUP else VAPI_LOOKUP
      match getAgentByKey lookup key with
      | none => restartScanner false { s1 with message := some unknownAgentMsg }
      | some info => { s1 with agent := some info, stage := .call }

/-! ## The Capability Probe (`queryPermission`)

The `queryPermission` callback of `App`: the host may lack the
permission-query capability entirely, and an existing capability's
individual query may reject (modelled with `Except`) or resolve with a
nullish state (modelled with `Option`). -/

/-- The `PermissionState` union tracked per capability. -/
inductive PermState where
  | granted | denied | prompt | unsupported
deriving DecidableEq

/-- The two media permission names queried. -/
inductive MediaPermissionName where
  | camera | microphone
deriving DecidableEq

/-- The host environment visible to `queryPermission`:
`permissionApiSupported` models `navigator.permissions?.query` being
present, and `queryResult` the outcome of one
`navigator.permissions.query({ name })` call. -/
structure PermHost where
  permissionApiSupported : Bool
  queryResult : MediaPermissionName → Except String (Option PermState)

/-- Embedding of `queryPermission`.  The second component records
whether the host query was attempted at all. -/
def queryPermission (host : PermHost) (name : MediaPermissionName) :
    PermState × Bool :=
  if host.permissionApiSupported = false then (.unsupported, false)
  else
    match host.queryResult name with
    | .error _ => (.prompt, true)
    | .ok none => (.prompt, true)
    | .ok (some st) => (st, true)

/-! ## Character-level lemmas about the string primitives -/

theorem toNat_ofNat_valid (n : Nat) (hv : n.isValidChar) :
    (Char.ofNat n).toNat = n := by
  simp [Char.ofNat, Char.ofNatAux, Char.toNat, hv, UInt32.toNat, BitVec.toNat_ofNatLt]

theorem toNat_lowerChar_of_upper {c : Char} (h : 'A' ≤ c ∧ c ≤ 'Z') :
    (lowerChar c).toNat = c.toNat + 32 := by
  have h1 : (65 : Nat) ≤ c.toNat := h.1
  have h2 : c.toNat ≤ 90 := h.2
  rw [lowerChar, if_pos h]
  exact toNat_ofNat_valid _ (Or.inl (by omega))

theorem char_ne_of_toNat_ne {c d : Char} (h : c.toNat ≠ d.toNat) : c ≠ d :=
  fun hc => h (hc ▸ rfl)

theorem lowerChar_not_upper (c : Char) :
    ¬ ('A' ≤ lowerChar c ∧ lowerChar c ≤ 'Z') := by
  by_cases h : 'A' ≤ c ∧ c ≤ 'Z'
  · have ht := toNat_lowerChar_of_upper h
    intro hcon
    have h2 : (lowerChar c).toNat ≤ 90 := hcon.2
    have h1 : (65 : Nat) ≤ c.toNat := h.1
    omega
  · intro hcon
    rw [lowerChar, if_neg h] at hcon
    exact h hcon

theorem not_ws_of_range {c : Char} (h1 : 65 ≤ c.toNat) (h2 : c.toNat ≤ 122) :
    jsSpace c = false := by
  simp only [jsSpace, Char.isWhitespace]
  have e1 : (' ' : Char).toNat = 32 := by decide
  have e2 : ('\t' : Char).toNat = 9 := by decide
  have e3 : ('\r' : Char).toNat = 13 := by decide
  have e4 : ('\n' : Char).toNat = 10 := by decide
  have n1 : c ≠ ' ' := char_ne_of_toNat_ne (by omega)
  have n2 : c ≠ '\t' := char_ne_of_toNat_ne (by omega)
  have n3 : c ≠ '\r' := char_ne_of_toNat_ne (by omega)
  have n4 : c ≠ '\n' := char_ne_of_toNat_ne (by omega)
  simp [n1, n2, n3, n4]

theorem lowerChar_idem (c : Char) : lowerChar (lowerChar c) = lowerChar c := by
  rw [lowerChar, if_neg (lowerChar_not_upper c)]

theorem jsSpace_lowerChar (c : Char) : jsSpace (lowerChar c) = jsSpace c := by
  by_cases h : 'A' ≤ c ∧ c ≤ 'Z'
  · have ht := toNat_lowerChar_of_upper h
    have h1 : (65 : Nat) ≤ c.toNat := h.1
    have h2 : c.toNat ≤ 90 := h.2
    rw [not_ws_of_range (by omega) (by omega), not_ws_of_range (by omega) (by omega)]
  · rw [lowerChar, if_neg h]

theorem jsLower_jsLower (s : JStr) : jsLower (jsLower s) = jsLower s := by
  simp [jsLower, List.map_map, Function.comp_def, lowerChar_idem]

theorem jsTrim_jsLower (s : JStr) : jsTrim (jsLower s) = jsLower (jsTrim s) := by
  have hc : (fun c => jsSpace (lowerChar c)) = jsSpace := funext jsSpace_lowerChar
  simp only [jsTrim, jsLower, List.dropWhile_map, Function.comp_def, hc,
    ← List.map_reverse]

theorem jsLower_eq_nil {s : JStr} : jsLower s = [] ↔ s = [] := by
  simp [jsLower]

/-! ## Concrete payloads used by the claims -/

/-- The characters of the payload `{"agent":"rio"}`. -/
def rioJsonPayload : JStr :=
  ['{', '"', 'a', 'g', 'e', 'n', 't', '"', ':', '"', 'r', 'i', 'o', '"', '}']

/-- The characters of the payload `{"agent":""}`. -/
def emptyAgentJsonPayload : JStr :=
  ['{', '"', 'a', 'g', 'e', 'n', 't', '"', ':', '"', '"', '}']

/-- The characters of the malformed payload `{oops`. -/
def malformedJsonPayload : JStr := ['{', 'o', 'o', 'p', 's']

/-- A brace-led input can never also start with the URI scheme. -/
theorem not_uri_of_brace {t : JStr} (h : (['{'] : JStr).isPrefixOf t = true) :
    uriScheme.isPrefixOf t = false := by
  cases t with
  | nil => simp [List.isPrefixOf] at h
  | cons c cs =>
    simp [List.isPrefixOf] at h
    subst h
    simp [uriScheme, List.isPrefixOf]

/-- Claim C4 counterexample: a whitespace-only, non-empty payload does
not resolve to `null`; `resolveAgentKey` falls through to `return
trimmed` and yields the empty string. -/
theorem resolveAgentKey_ws_not_null :
    resolveAgentKey ("   ".toList) = some [] ∧
    resolveAgentKey ("   ".toList) ≠ none := by
  constructor
  · decide
  · decide

/-- Claim C4 (amended): the empty payload resolves to `null`; a
whitespace-only non-empty payload resolves to the empty string (which
every caller treats as an absent key via JavaScript falsiness). -/
theorem resolveAgentKey_empty_ws :
    resolveAgentKey [] = none ∧
    (∀ p : JStr, p ≠ [] → (∀ c ∈ p, jsSpace c = true) →
      resolveAgentKey p = some []) := by
  refine ⟨rfl, ?_⟩
  intro p hne hws
  have hd : p.dropWhile jsSpace = [] := by
    rw [List.dropWhile_eq_nil_iff]
    exact fun x hx => hws x hx
  have ht : jsTrim p = [] := by
    rw [jsTrim, hd]
    rfl
  simp [resolveAgentKey, hne, ht, uriScheme, List.isPrefixOf]

/-- Claim C4 witness: the theorem applied to the three-space payload. -/
theorem resolveAgentKey_empty_ws_witness :
    resolveAgentKey ("   ".toList) = some [] :=
  resolveAgentKey_empty_ws.2 ("   ".toList) (by decide) (by decide)

/-- Claim C5: the shape rules of `resolveAgentKey`, read on the trimmed
payload (rule 1 normalises by trimming before rules 2–4 are checked):
a payload whose trimmed form starts with the URI scheme resolves to the
trimmed final `/`-segment (`null` when that segment is empty); one
whose trimmed form starts with `{` resolves through the structured
branch (`null` on parse failure, a missing `agent` field, or an empty
trimmed value); any other non-empty payload resolves to its trimmed
self; and the five concrete examples of the spec hold. -/
theorem resolveAgentKey_shape :
    (∀ p : JStr, uriScheme.isPrefixOf (jsTrim p) = true →
      resolveAgentKey p =
        (if jsTrim (lastSegment (jsSplit '/' (jsTrim p))) = [] then none
         else some (jsTrim (lastSegment (jsSplit '/' (jsTrim p)))))) ∧
    (∀ p : JStr, (['{'] : JStr).isPrefixOf (jsTrim p) = true →
      resolveAgentKey p =
        (match jsonParse (jsTrim p) with
         | none => none
         | some v => agentFieldValue v)) ∧
    (∀ p : JStr, p ≠ [] → uriScheme.isPrefixOf (jsTrim p) = false →
      (['{'] : JStr).isPrefixOf (jsTrim p) = false →
      resolveAgentKey p = some (jsTrim p)) ∧
    resolveAgentKey ("rio".toList) = some ("rio".toList) ∧
    resolveAgentKey ("talkiewalkie://agent/rio".toList) = some ("rio".toList) ∧
    resolveAgentKey rioJsonPayload = some ("rio".toList) ∧
    resolveAgentKey [] = none ∧
    resolveAgentKey emptyAgentJsonPayload = none := by
  refine ⟨?_, ?_, ?_, by decide, by decide, ?_, rfl, ?_⟩
  · intro p h
    have hp : p ≠ [] := by
      rintro rfl
      revert h
      decide
    simp [resolveAgentKey, hp, h]
  · intro p h
    have hp : p ≠ [] := by
      rintro rfl
      revert h
      decide
    have hu : uriScheme.isPrefixOf (jsTrim p) = false := not_uri_of_brace h
    simp [resolveAgentKey, hp, hu, h]
  · intro p hne hu hb
    simp [resolveAgentKey, hne, hu, hb]
  · rfl
  · rfl

/-- Claim C5 witness: the URI-scheme rule applied to the concrete
payload `talkiewalkie://agent/rio`. -/
theorem resolveAgentKey_shape_witness :
    resolveAgentKey ("talkiewalkie://agent/rio".toList) =
      (if jsTrim (lastSegment (jsSplit '/' (jsTrim ("talkiewalkie://agent/rio".toList)))) = [] then none
       else some (jsTrim (lastSegment (jsSplit '/' (jsTrim ("talkiewalkie://agent/rio".toList)))))) :=
  resolveAgentKey_shape.1 ("talkiewalkie://agent/rio".toList) (by decide)

/-- Claim C6: `resolveAgentKey` is total and never throws — its
exception-explicit embedding always returns `.ok` of the plain result
(the `catch` absorbs the only throw site) — and a brace-led payload
whose body `JSON.parse` rejects resolves to `null`. -/
theorem resolveAgentKey_never_throws :
    (∀ p : JStr, resolveAgentKeyE p = .ok (resolveAgentKey p)) ∧
    (∀ p : JStr, (['{'] : JStr).isPrefixOf (jsTrim p) = true →
      jsonParse (jsTrim p) = none → resolveAgentKey p = none) := by
  constructor
  · intro p
    by_cases hp : p = []
    · subst hp
      rfl
    · simp only [resolveAgentKeyE, resolveAgentKey, if_neg hp]
      cases hu : uriScheme.isPrefixOf (jsTrim p) with
      | true => simp [hu]
      | false =>
        cases hb : (['{'] : JStr).isPrefixOf (jsTrim p) with
        | true =>
          cases hj : jsonParse (jsTrim p) with
          | none => simp [hu, hb, hj]
          | some v => simp [hu, hb, hj]
        | false => simp [hu, hb]
  · intro p hb hj
    have hp : p ≠ [] := by
      rintro rfl
      revert hb
      decide
    have hu : uriScheme.isPrefixOf (jsTrim p) = false := not_uri_of_brace hb
    simp [resolveAgentKey, hp, hu, hb, hj]

/-- Claim C6 witness: the malformed payload `{oops` neither throws nor
resolves. -/
theorem resolveAgentKey_never_throws_witness :
    resolveAgentKeyE malformedJsonPayload = .ok (resolveAgentKey malformedJsonPayload) ∧
    resolveAgentKey malformedJsonPayload = none :=
  ⟨resolveAgentKey_never_throws.1 malformedJsonPayload,
   resolveAgentKey_never_throws.2 malformedJsonPayload (by decide) (by rfl)⟩

/-- Claim C7: `getAgentByKey` is case-insensitive (a key and its
lower-cased form look up the same entry), rejects `null` and empty
keys, and a non-null result comes only from an entry whose key exactly
equals the normalised (trimmed, lower-cased) input — no fuzzy or
partial matching; in particular `RIO` and `rio` agree on the Vapi
lookup, where `rio` is a key. -/
theorem getAgentByKey_case_insensitive :
    (∀ (lookup : List (JStr × AgentInfo)) (k : JStr),
      getAgentByKey lookup (some k) = getAgentByKey lookup (some (jsLower k))) ∧
    (∀ lookup : List (JStr × AgentInfo),
      getAgentByKey lookup none = none ∧ getAgentByKey lookup (some []) = none) ∧
    (∀ (lookup : List (JStr × AgentInfo)) (k : JStr) (info : AgentInfo),
      getAgentByKey lookup (some k) = some info →
      (jsLower (jsTrim k), info) ∈ lookup) ∧
    getAgentByKey VAPI_LOOKUP (some ("RIO".toList)) =
      getAgentByKey VAPI_LOOKUP (some ("rio".toList)) ∧
    getAgentByKey VAPI_LOOKUP (some ("rio".toList)) =
      some ⟨"1e171fee-c39d-4848-a6fd-2e658a442ff0", "RIO"⟩ := by
  refine ⟨?_, fun lookup => ⟨rfl, rfl⟩, ?_, by decide, by decide⟩
  · intro lookup k
    by_cases hk : k = []
    · subst hk
      rfl
    · have hk2 : jsLower k ≠ [] := fun h => hk (jsLower_eq_nil.mp h)
      have hnorm : jsLower (jsTrim (jsLower k)) = jsLower (jsTrim k) := by
        rw [jsTrim_jsLower, jsLower_jsLower]
      simp only [getAgentByKey, if_neg hk, if_neg hk2, hnorm]
  · intro lookup k info h
    simp only [getAgentByKey] at h
    by_cases hk : k = []
    · simp [hk] at h
    · rw [if_neg hk] at h
      by_cases hn : jsLower (jsTrim k) = []
      · simp only [hn, if_pos rfl] at h
        cases h
      · rw [if_neg hn] at h
        unfold jsRecordGet at h
        obtain ⟨e, he, h2⟩ := Option.map_eq_some'.mp h
        have hmem : e ∈ lookup.reverse := List.mem_of_find?_eq_some he
        have hpred : e.1 = jsLower (jsTrim k) := by
          have := List.find?_some he
          exact of_decide_eq_true this
        rw [List.mem_reverse] at hmem
        obtain ⟨e1, e2⟩ := e
        simp only at hpred h2
        rw [← hpred, ← h2]
        exact hmem

/-- Claim C7 witness: the case-insensitivity conjunct applied at a
concrete mixed-case key with surrounding whitespace. -/
theorem getAgentByKey_case_insensitive_witness :
    (jsLower (jsTrim (" RIO ".toList)),
      (⟨"1e171fee-c39d-4848-a6fd-2e658a442ff0", "RIO"⟩ : AgentInfo)) ∈ VAPI_LOOKUP :=
  getAgentByKey_case_insensitive.2.2.1 VAPI_LOOKUP (" RIO ".toList)
    ⟨"1e171fee-c39d-4848-a6fd-2e658a442ff0", "RIO"⟩ (by decide)

/-- Claim C9: `queryPermission` returns `unsupported` without
attempting the host query when the permission API is absent; when the
API exists but the individual query rejects, the rejection is swallowed
and `prompt` is returned; being a total function into
`PermState × Bool`, it never throws to its caller. -/
theorem queryPermission_spec :
    ∀ (host : PermHost) (name : MediaPermissionName),
      (host.permissionApiSupported = false →
        queryPermission host name = (.unsupported, false)) ∧
      (host.permissionApiSupported = true →
        ∀ e : String, host.queryResult name = .error e →
        queryPermission host name = (.prompt, true)) := by
  intro host name
  constructor
  · intro h
    simp [queryPermission, h]
  · intro hs e h
    simp [queryPermission, hs, h]

/-- A host with no permission-query capability (its query would reject
if it were ever attempted). -/
def unsupportedHost : PermHost :=
  { permissionApiSupported := false, queryResult := fun _ => .error "no api" }

/-- A host whose permission query rejects. -/
def rejectingHost : PermHost :=
  { permissionApiSupported := true, queryResult := fun _ => .error "NotSupportedError" }

/-- Claim C9 witness: both branches at concrete hosts. -/
theorem queryPermission_spec_witness :
    queryPermission unsupportedHost .camera = (.unsupported, false) ∧
    queryPermission rejectingHost .microphone = (.prompt, true) :=
  ⟨(queryPermission_spec unsupportedHost .camera).1 rfl,
   (queryPermission_spec rejectingHost .microphone).2 rfl "NotSupportedError" rfl⟩

/-- Claim C2: while the status is `connecting` or `live`, `startCall`
(Vapi variant) and `startSession` (ElevenLabs variant) are no-ops: the
state (status, error, mute flag, hold flag) is returned unchanged and
the backend session start is not invoked. -/
theorem startSession_guarded :
    (∀ (s : VState) (micOk startOk : Bool) (failMsg : String) (muteThrows : Bool),
      s.status = .connecting ∨ s.status = .live →
      startCall micOk startOk failMsg muteThrows s = (s, false)) ∧
    (∀ (s : EState) (apiKeyOk micOk startOk : Bool) (failMsg : String),
      s.status = .connecting ∨ s.status = .live →
      startSession apiKeyOk micOk startOk failMsg s = (s, false)) := by
  constructor
  · intro s micOk startOk failMsg muteThrows h
    unfold startCall
    rw [if_pos h]
  · intro s apiKeyOk micOk startOk failMsg h
    unfold startSession
    rw [if_pos h]

/-- A connecting-state `CallScreen`. -/
def connectingVState : VState :=
  { status := .connecting, error := none, isHolding := false, isMuted := true }

/-- A live-state `ElevenLabsCallScreen`. -/
def liveEState : EState :=
  { status := .live, error := none, isHolding := false, isMicMuted := true }

/-- Claim C2 witness: both guards at concrete states. -/
theorem startSession_guarded_witness :
    startCall true true "m" false connectingVState = (connectingVState, false) ∧
    startSession true true true "m" liveEState = (liveEState, false) :=
  ⟨startSession_guarded.1 connectingVState true true "m" false (Or.inl rfl),
   startSession_guarded.2 liveEState true true true "m" (Or.inr rfl)⟩

/-! ## Invariant lemmas for the two call-screen machines -/

@[simp]
theorem applyMuteState_status (m t : Bool) (s : VState) :
    (applyMuteState m t s).status = s.status := by
  unfold applyMuteState
  split <;> rfl

@[simp]
theorem applyMuteState_isHolding (m t : Bool) (s : VState) :
    (applyMuteState m t s).isHolding = s.isHolding := by
  unfold applyMuteState
  split <;> rfl

theorem applyMuteState_isMuted (m : Bool) (s : VState) :
    (applyMuteState m false s).isMuted = m := by
  unfold applyMuteState
  rfl

@[simp]
theorem statusEffect_status (s : VState) : (statusEffect s).status = s.status := by
  unfold statusEffect
  split <;> rfl

@[simp]
theorem statusEffect_isMuted (s : VState) : (statusEffect s).isMuted = s.isMuted := by
  unfold statusEffect
  split <;> rfl

theorem statusEffect_inv (s : VState) :
    (statusEffect s).isHolding = true → (statusEffect s).status = .live := by
  unfold statusEffect
  by_cases h : s.status = .live
  · simp [h]
  · simp [h]

theorem vapiHandle_inv {s : VState} (h : s.isHolding = true → s.status = .live)
    (e : VEvent) :
    (vapiHandle s e).isHolding = true → (vapiHandle s e).status = .live := by
  cases e with
  | evStartCall micOk startOk failMsg muteThrows =>
    simp only [vapiHandle, startCall]
    by_cases hg : s.status = .connecting ∨ s.status = .live
    · rw [if_pos hg]
      exact h
    · rw [if_neg hg]
      intro hh
      exfalso
      cases micOk with
      | false =>
        simp at hh
        exact hg (Or.inr (h hh))
      | true =>
        cases startOk with
        | false =>
          simp at hh
          exact hg (Or.inr (h hh))
        | true =>
          simp at hh
          exact hg (Or.inr (h hh))
  | evEndCall stopThrows muteThrows =>
    simp [vapiHandle, endCall]
  | evCallStart muteThrows =>
    simp [vapiHandle, onCallStart]
  | evCallEnd muteThrows =>
    simp [vapiHandle, onCallEnd]
  | evCallStartFailed muteThrows =>
    simp [vapiHandle, onCallStartFailed]
  | evError muteThrows =>
    simp [vapiHandle, onError]
  | evHoldStart muteThrows =>
    simp only [vapiHandle, handleHoldStart]
    by_cases hg : s.status ≠ .live ∨ s.isHolding = true
    · rw [if_pos hg]
      exact h
    · rw [if_neg hg]
      push_neg at hg
      simp only [applyMuteState_isHolding, applyMuteState_status]
      intro _
      exact hg.1
  | evHoldEnd muteThrows =>
    simp only [vapiHandle, handleHoldEnd]
    by_cases hg : s.isHolding = false
    · rw [if_pos hg]
      exact h
    · rw [if_neg hg]
      simp

theorem vapiStep_inv {s : VState} (h : s.isHolding = true → s.status = .live)
    (e : VEvent) :
    (vapiStep s e).isHolding = true → (vapiStep s e).status = .live := by
  unfold vapiStep
  by_cases hc : (vapiHandle s e).status = s.status
  · rw [if_pos hc]
    exact vapiHandle_inv h e
  · rw [if_neg hc]
    exact statusEffect_inv _

/-- Hold-implies-live invariant over all reachable `CallScreen`
states. -/
theorem vreachable_hold_inv {s : VState} (h : VReachable s) :
    s.isHolding = true → s.status = .live := by
  induction h with
  | init => intro hh; cases hh
  | step e _ ih => exact vapiStep_inv ih e

theorem elStep_inv {s : EState}
    (h1 : s.isHolding = true → s.status = .live)
    (h2 : s.isMicMuted = false → s.status = .live) (e : EEvent) :
    ((elStep s e).isHolding = true → (elStep s e).status = .live) ∧
    ((elStep s e).isMicMuted = false → (elStep s e).status = .live) := by
  cases e with
  | evStartSession apiKeyOk micOk startOk failMsg =>
    simp only [elStep, startSession]
    by_cases hg : s.status = .connecting ∨ s.status = .live
    · rw [if_pos hg]
      exact ⟨h1, h2⟩
    · rw [if_neg hg]
      cases apiKeyOk with
      | false =>
        simp only [if_pos rfl]
        constructor
        · intro hh
          simp at hh
          exact absurd (Or.inr (h1 hh)) hg
        · intro hh
          simp at hh
          exact absurd (Or.inr (h2 hh)) hg
      | true =>
        simp only [Bool.true_eq_false, if_false]
        cases micOk with
        | false =>
          simp only [if_pos rfl]
          constructor
          · intro hh
            simp at hh
            exact absurd (Or.inr (h1 hh)) hg
          · intro hh
            simp at hh
        | true =>
          simp only [Bool.true_eq_false, if_false]
          cases startOk with
          | false =>
            simp only [if_pos rfl]
            constructor
            · intro hh
              simp at hh
              exact absurd (Or.inr (h1 hh)) hg
            · intro hh
              simp at hh
          | true =>
            simp
  | evEndSession teardownFails =>
    simp [elStep, endSession]
  | evStatusChange b =>
    cases b with
    | connected => simp [elStep, onStatusChange]
    | disconnecting => simp [elStep, onStatusChange]
    | disconnected => simp [elStep, onStatusChange]
    | other => exact ⟨h1, h2⟩
  | evDisconnect =>
    simp [elStep, onDisconnect]
  | evConvError msg =>
    simp [elStep, onConvError]
  | evHoldStart =>
    simp only [elStep, elHoldStart]
    by_cases hg : s.status ≠ .live ∨ s.isHolding = true
    · rw [if_pos hg]
      exact ⟨h1, h2⟩
    · rw [if_neg hg]
      push_neg at hg
      constructor
      · intro _
        exact hg.1
      · intro _
        exact hg.1
  | evHoldEnd =>
    simp only [elStep, elHoldEnd]
    by_cases hg : s.isHolding = false
    · rw [if_pos hg]
      exact ⟨h1, h2⟩
    · rw [if_neg hg]
      simp

/-- Hold-implies-live and unmuted-implies-live invariants over all
reachable `ElevenLabsCallScreen` states. -/
theorem ereachable_inv {s : EState} (h : EReachable s) :
    (s.isHolding = true → s.status = .live) ∧
    (s.isMicMuted = false → s.status = .live) := by
  induction h with
  | init =>
    constructor
    · intro hh
      cases hh
    · intro hh
      cases hh
  | step e _ ih => exact elStep_inv ih.1 ih.2 e

/-- A step that changes the status to a non-`live` value leaves the
hold flag cleared (the `[status]` effect re-runs and clears it). -/
theorem vapi_hold_cleared (s : VState) (e : VEvent)
    (h1 : (vapiStep s e).status ≠ s.status)
    (h2 : (vapiStep s e).status ≠ .live) : (vapiStep s e).isHolding = false := by
  unfold vapiStep at *
  by_cases hc : (vapiHandle s e).status = s.status
  · rw [if_pos hc] at h1
    exact absurd hc h1
  · rw [if_neg hc] at h2 ⊢
    rw [statusEffect_status] at h2
    unfold statusEffect
    rw [if_pos h2]

/-- Whether an event's `vapi.setMuted` call succeeds. -/
def veventMuteOk : VEvent → Bool
  | .evStartCall _ _ _ muteThrows => !muteThrows
  | .evEndCall _ muteThrows => !muteThrows
  | .evCallStart muteThrows => !muteThrows
  | .evCallEnd muteThrows => !muteThrows
  | .evCallStartFailed muteThrows => !muteThrows
  | .evError muteThrows => !muteThrows
  | .evHoldStart muteThrows => !muteThrows
  | .evHoldEnd muteThrows => !muteThrows

/-- Both branches of a hold gesture leave the status unchanged. -/
theorem holdEvent_status (s : VState) (m : Bool) :
    (vapiHandle s (.evHoldStart m)).status = s.status ∧
    (vapiHandle s (.evHoldEnd m)).status = s.status := by
  constructor
  · simp only [vapiHandle, handleHoldStart]
    split
    · rfl
    · rw [applyMuteState_status]
  · simp only [vapiHandle, handleHoldEnd]
    split
    · rfl
    · rw [applyMuteState_status]

/-- A status-changing step into `ended` or `error` sets the mute flag
whenever that event's `vapi.setMuted` call succeeds. -/
theorem vapiStep_mutes (s : VState) (e : VEvent)
    (hterm : (vapiStep s e).status = .ended ∨ (vapiStep s e).status = .error)
    (hchg : (vapiStep s e).status ≠ s.status)
    (hok : veventMuteOk e = true) : (vapiStep s e).isMuted = true := by
  have hmain : (vapiHandle s e).isMuted = true ∨ (vapiHandle s e).status = s.status ∨
      ((vapiHandle s e).status ≠ .ended ∧ (vapiHandle s e).status ≠ .error) := by
    cases e with
    | evStartCall micOk startOk failMsg muteThrows =>
      simp only [veventMuteOk, Bool.not_eq_true'] at hok
      subst hok
      simp only [vapiHandle, startCall]
      by_cases hg : s.status = .connecting ∨ s.status = .live
      · rw [if_pos hg]
        exact Or.inr (Or.inl rfl)
      · rw [if_neg hg]
        cases micOk with
        | false =>
          left
          simp [applyMuteState]
        | true =>
          cases startOk with
          | false =>
            left
            simp [applyMuteState]
          | true =>
            right
            right
            constructor
            · intro hx
              simp [applyMuteState] at hx
            · intro hx
              simp [applyMuteState] at hx
    | evEndCall stopThrows muteThrows =>
      simp only [veventMuteOk, Bool.not_eq_true'] at hok
      subst hok
      left
      simp [vapiHandle, endCall, applyMuteState]
    | evCallStart muteThrows =>
      right
      right
      constructor
      · intro hx
        simp [vapiHandle, onCallStart] at hx
      · intro hx
        simp [vapiHandle, onCallStart] at hx
    | evCallEnd muteThrows =>
      simp only [veventMuteOk, Bool.not_eq_true'] at hok
      subst hok
      left
      simp [vapiHandle, onCallEnd, applyMuteState]
    | evCallStartFailed muteThrows =>
      simp only [veventMuteOk, Bool.not_eq_true'] at hok
      subst hok
      left
      simp [vapiHandle, onCallStartFailed, applyMuteState]
    | evError muteThrows =>
      simp only [veventMuteOk, Bool.not_eq_true'] at hok
      subst hok
      left
      simp [vapiHandle, onError, applyMuteState]
    | evHoldStart muteThrows =>
      exact Or.inr (Or.inl (holdEvent_status s muteThrows).1)
    | evHoldEnd muteThrows =>
      exact Or.inr (Or.inl (holdEvent_status s muteThrows).2)
  have hstep_status : (vapiStep s e).status = (vapiHandle s e).status := by
    unfold vapiStep
    by_cases hc : (vapiHandle s e).status = s.status
    · rw [if_pos hc]
    · rw [if_neg hc, statusEffect_status]
  have hstep_muted : (vapiStep s e).isMuted = (vapiHandle s e).isMuted := by
    unfold vapiStep
    by_cases hc : (vapiHandle s e).status = s.status
    · rw [if_pos hc]
    · rw [if_neg hc, statusEffect_isMuted]
  rcases hmain with hm | hm | hm
  · rw [hstep_muted]
    exact hm
  · rw [hstep_status] at hchg
    exact absurd hm hchg
  · rw [hstep_status] at hterm
    rcases hterm with h | h
    · exact absurd h hm.1
    · exact absurd h hm.2

/-- A status-changing `ElevenLabsCallScreen` step into `ended` or
`error` from a reachable state clears the hold flag and mutes. -/
theorem elStep_terminal (s : EState) (e : EEvent) (hr : EReachable s)
    (hterm : (elStep s e).status = .ended ∨ (elStep s e).status = .error)
    (hchg : (elStep s e).status ≠ s.status) :
    (elStep s e).isHolding = false ∧ (elStep s e).isMicMuted = true := by
  obtain ⟨h1, h2⟩ := ereachable_inv hr
  cases e with
  | evStartSession apiKeyOk micOk startOk failMsg =>
    simp only [elStep, startSession] at *
    by_cases hg : s.status = .connecting ∨ s.status = .live
    · rw [if_pos hg] at hchg
      exact absurd rfl hchg
    · rw [if_neg hg] at hterm hchg ⊢
      have hnl : s.status ≠ .live := fun hx => hg (Or.inr hx)
      have hh : s.isHolding = false := by
        cases hhold : s.isHolding with
        | false => rfl
        | true => exact absurd (h1 hhold) hnl
      have hm : s.isMicMuted = true := by
        cases hmut : s.isMicMuted with
        | true => rfl
        | false => exact absurd (h2 hmut) hnl
      cases apiKeyOk with
      | false =>
        simp [hh, hm]
      | true =>
        cases micOk with
        | false => simp [hh]
        | true =>
          cases startOk with
          | false => simp [hh]
          | true =>
            simp at hterm
  | evEndSession teardownFails =>
    simp [elStep, endSession]
  | evStatusChange b =>
    cases b with
    | connected =>
      simp only [elStep, onStatusChange] at hterm
      rcases hterm with h | h
      · cases h
      · cases h
    | disconnecting => simp [elStep, onStatusChange]
    | disconnected => simp [elStep, onStatusChange]
    | other => exact absurd rfl hchg
  | evDisconnect =>
    simp [elStep, onDisconnect]
  | evConvError msg =>
    simp [elStep, onConvError]
  | evHoldStart =>
    have hst : (elStep s .evHoldStart).status = s.status := by
      simp only [elStep, elHoldStart]
      split
      · rfl
      · rfl
    exact absurd hst hchg
  | evHoldEnd =>
    have hst : (elStep s .evHoldEnd).status = s.status := by
      simp only [elStep, elHoldEnd]
      split
      · rfl
      · rfl
    exact absurd hst hchg

/-- Claim C10: in every reachable push-to-talk `CallScreen` state the
hold flag is true only while the status is exactly `live`;
`handleHoldStart` is a no-op unless the status is `live` (and not
already holding); and any step that changes the status to a non-`live`
value leaves the hold flag cleared (the `[status]` effect). -/
theorem hold_only_while_live :
    (∀ s : VState, VReachable s → s.isHolding = true → s.status = .live) ∧
    (∀ (s : VState) (muteThrows : Bool), s.status ≠ .live →
      handleHoldStart muteThrows s = s) ∧
    (∀ (s : VState) (e : VEvent), (vapiStep s e).status ≠ s.status →
      (vapiStep s e).status ≠ .live → (vapiStep s e).isHolding = false) := by
  refine ⟨fun s h => vreachable_hold_inv h, ?_, ?_⟩
  · intro s muteThrows h
    unfold handleHoldStart
    rw [if_pos (Or.inl h)]
  · exact vapi_hold_cleared

/-- The reachable state used by several concrete scenarios: mount,
successful `startCall`, backend `call-start`, then a hold gesture —
live, holding, unmuted. -/
def holdingLiveState : VState :=
  vapiStep (vapiStep (vapiStep vapiInit (.evStartCall true true "m" false))
    (.evCallStart false)) (.evHoldStart false)

/-- Claim C10 witness: the invariant applied to a concrete reachable
holding state. -/
theorem hold_only_while_live_witness : holdingLiveState.status = .live :=
  hold_only_while_live.1 holdingLiveState
    (VReachable.step (.evHoldStart false)
      (VReachable.step (.evCallStart false)
        (VReachable.step (.evStartCall true true "m" false) VReachable.init)))
    (by decide)

/-- Claim C1 counterexample: from the reachable live/holding/unmuted
state, a backend `call-end` event during which `vapi.setMuted(true)`
throws (its `catch` in `applyMuteState` only logs) transitions the
status into `ended` while leaving the mute flag `false`. -/
theorem terminal_mute_counterexample :
    VReachable holdingLiveState ∧
    holdingLiveState.status = .live ∧
    holdingLiveState.isMuted = false ∧
    (vapiStep holdingLiveState (.evCallEnd true)).status = .ended ∧
    (vapiStep holdingLiveState (.evCallEnd true)).isMuted = false :=
  ⟨VReachable.step (.evCallStart false)
      (VReachable.step (.evStartCall true true "m" false) VReachable.init)
     |>.step (.evHoldStart false),
   by decide, by decide, by decide, by decide⟩

/-- Claim C1 (amended): every transition of the status into `ended` or
`error` leaves the hold flag `false` unconditionally; it leaves the
mute flag `true` whenever the `vapi.setMuted(true)` call does not throw
(in the ElevenLabs variant unconditionally, its mute flag being plain
state) — when `setMuted` throws, the failure is logged and the mute
flag keeps its prior value. -/
theorem terminal_forces_mute :
    (∀ (s : VState) (e : VEvent),
      ((vapiStep s e).status = .ended ∨ (vapiStep s e).status = .error) →
      (vapiStep s e).status ≠ s.status →
      (vapiStep s e).isHolding = false ∧
      (veventMuteOk e = true → (vapiStep s e).isMuted = true)) ∧
    (∀ (s : EState) (e : EEvent), EReachable s →
      ((elStep s e).status = .ended ∨ (elStep s e).status = .error) →
      (elStep s e).status ≠ s.status →
      (elStep s e).isHolding = false ∧ (elStep s e).isMicMuted = true) := by
  constructor
  · intro s e hterm hchg
    have hnl : (vapiStep s e).status ≠ .live := by
      rcases hterm with h | h
      · rw [h]
        intro hx
        cases hx
      · rw [h]
        intro hx
        cases hx
    constructor
    · exact vapi_hold_cleared s e hchg hnl
    · intro hok
      exact vapiStep_mutes s e hterm hchg hok
  · intro s e hr hterm hchg
    exact elStep_terminal s e hr hterm hchg

/-- Claim C1 witness: the amended theorem applied to a concrete
`call-end` with a working `setMuted` (Vapi) and a concrete conversation
error (ElevenLabs). -/
theorem terminal_forces_mute_witness :
    (vapiStep holdingLiveState (.evCallEnd false)).isHolding = false ∧
    (vapiStep holdingLiveState (.evCallEnd false)).isMuted = true ∧
    (elStep elInit (.evConvError "boom")).isHolding = false ∧
    (elStep elInit (.evConvError "boom")).isMicMuted = true := by
  obtain ⟨hv1, hv2⟩ := terminal_forces_mute.1 holdingLiveState (.evCallEnd false)
    (Or.inl (by decide)) (by decide)
  obtain ⟨he1, he2⟩ := terminal_forces_mute.2 elInit (.evConvError "boom")
    EReachable.init (Or.inr (by decide)) (by decide)
  exact ⟨hv1, hv2 (by decide), he1, he2⟩

/-- Claim C3 counterexample: from the reachable live/holding/unmuted
state, `endCall` with a synchronously-throwing `vapi.stop()` (and a
throwing `setMuted`) re-propagates the teardown failure to its caller
(the `try`/`finally` has no `catch`) and leaves the mute flag `false`,
although the local status does become `ended`. -/
theorem endCall_teardown_counterexample :
    (endCall true true holdingLiveState).2 = true ∧
    (endCall true true holdingLiveState).1.status = .ended ∧
    (endCall true true holdingLiveState).1.isMuted = false := by
  refine ⟨by decide, by decide, by decide⟩

/-- Claim C3 (amended): for every controller state, `endSession` /
`endCall` locally sets the status to `ended` (never `error`) and clears
the hold flag; the mute flag is forced `true` whenever the backend
`setMuted` command does not throw (in the ElevenLabs variant
unconditionally); the ElevenLabs variant never propagates the teardown
failure (the promise gets a logging `.catch`), while the Vapi variant's
`endCall` re-propagates a synchronously-throwing `vapi.stop()` to its
caller after the local transition has completed. -/
theorem endSession_local_state :
    (∀ (s : VState) (stopThrows muteThrows : Bool),
      (endCall stopThrows muteThrows s).1.status = .ended ∧
      (endCall stopThrows muteThrows s).1.isHolding = false ∧
      (muteThrows = false → (endCall stopThrows muteThrows s).1.isMuted = true) ∧
      (endCall stopThrows muteThrows s).2 = stopThrows) ∧
    (∀ (s : EState) (teardownFails : Bool),
      (endSession teardownFails s).1.status = .ended ∧
      (endSession teardownFails s).1.isHolding = false ∧
      (endSession teardownFails s).1.isMicMuted = true ∧
      (endSession teardownFails s).2 = false) := by
  constructor
  · intro s stopThrows muteThrows
    refine ⟨rfl, rfl, ?_, rfl⟩
    intro h
    subst h
    simp [endCall, applyMuteState]
  · intro s teardownFails
    exact ⟨rfl, rfl, rfl, rfl⟩

/-- Claim C3 witness: a concrete `endCall` whose `vapi.stop` throws but
whose `setMuted` succeeds, and a concrete `endSession` whose backend
teardown rejects. -/
theorem endSession_local_state_witness :
    (endCall true false connectingVState).1.status = .ended ∧
    (endCall true false connectingVState).1.isMuted = true ∧
    (endCall true false connectingVState).2 = true ∧
    (endSession true liveEState).1.isMicMuted = true ∧
    (endSession true liveEState).2 = false := by
  obtain ⟨h1, h2, h3, h4⟩ := endSession_local_state.1 connectingVState true false
  obtain ⟨g1, g2, g3, g4⟩ := endSession_local_state.2 liveEState true
  exact ⟨h1, h3 rfl, h4, g3, g4⟩

/-- Claim C8: in a provider-selected state, a detected payload whose
resolved key is falsy re-enters `scanning` with the reset token bumped
by one (strictly greater, forcing a fresh `Scanner` instance) and the
"could not read" message still displayed; a non-falsy key with no
matching descriptor does the same with the "unknown agent" message
(the `restartScanner(false)` re-entry does not clear it); a payload
resolving to a known descriptor stores it and transitions to `call`. -/
theorem handleDetection_resolution :
    ∀ (s : AppState) (payload : JStr) (p : Provider), s.provider = some p →
      (keyFalsy (resolveAgentKey payload) = true →
        (handleDetection payload s).stage = .scanning ∧
        (handleDetection payload s).scannerResetToken = s.scannerResetToken + 1 ∧
        (handleDetection payload s).message = some couldNotReadMsg) ∧
      (keyFalsy (resolveAgentKey payload) = false →
        getAgentByKey (lookupFor p) (resolveAgentKey payload) = none →
        (handleDetection payload s).stage = .scanning ∧
        (handleDetection payload s).scannerResetToken = s.scannerResetToken + 1 ∧
        (handleDetection payload s).message = some unknownAgentMsg) ∧
      (∀ info : AgentInfo,
        getAgentByKey (lookupFor p) (resolveAgentKey payload) = some info →
        (handleDetection payload s).stage = .call ∧
        (handleDetection payload s).agent = some info ∧
        (handleDetection payload s).message = none) := by
  intro s payload p hp
  have hpne : ¬ s.provider = none := by
    rw [hp]
    simp
  have hlk : (if s.provider = some Provider.elevenlabs then ELEVENLABS_LOOKUP
      else VAPI_LOOKUP) = lookupFor p := by
    rw [hp]
    cases p with
    | vapi => simp [lookupFor]
    | elevenlabs => simp [lookupFor]
  refine ⟨?_, ?_, ?_⟩
  · intro hf
    simp [handleDetection, restartScanner, hpne, hf]
  · intro hf hnone
    simp only [handleDetection, restartScanner, hpne, hf, if_false, if_neg hpne,
      Bool.false_eq_true]
    rw [hlk, hnone]
    exact ⟨rfl, rfl, rfl⟩
  · intro info hsome
    have hf : keyFalsy (resolveAgentKey payload) = false := by
      cases hk : keyFalsy (resolveAgentKey payload) with
      | false => rfl
      | true =>
        exfalso
        unfold keyFalsy at hk
        have hor := of_decide_eq_true hk
        rcases hor with h | h
        · rw [h] at hsome
          simp [getAgentByKey] at hsome
        · rw [h] at hsome
          simp [getAgentByKey] at hsome
    simp [handleDetection, hpne, hf, hlk, hsome]

/-- The scanning-stage `App` state with the Vapi provider selected. -/
def scanningAppState : AppState :=
  { provider := some .vapi, stage := .scanning, agent := none, message := none,
    scannerError := none, scannerResetToken := 0 }

/-- Claim C8 witness: an unknown payload `xyz` and the known payload
`rio` against the Vapi lookup. -/
theorem handleDetection_resolution_witness :
    (handleDetection ("xyz".toList) scanningAppState).stage = .scanning ∧
    (handleDetection ("xyz".toList) scanningAppState).scannerResetToken = 1 ∧
    (handleDetection ("xyz".toList) scanningAppState).message = some unknownAgentMsg ∧
    (handleDetection ("rio".toList) scanningAppState).stage = .call ∧
    (handleDetection ("rio".toList) scanningAppState).agent =
      some ⟨"1e171fee-c39d-4848-a6fd-2e658a442ff0", "RIO"⟩ := by
  obtain ⟨_, hu, _⟩ := handleDetection_resolution scanningAppState ("xyz".toList) .vapi rfl
  obtain ⟨h1, h2, h3⟩ := hu (by decide) (by decide)
  obtain ⟨_, _, hs⟩ := handleDetection_resolution scanningAppState ("rio".toList) .vapi rfl
  obtain ⟨g1, g2, _⟩ :=
    hs ⟨"1e171fee-c39d-4848-a6fd-2e658a442ff0", "RIO"⟩ (by decide)
  exact ⟨h1, h2, h3, g1, g2⟩
